import Mathlib

/-!
Verification development for the `garden.circulardatetimepicker` widget
(`src/__init__.py`): a shallow embedding of its angle-mapping geometry
(`CircularNumberPicker.pos_for_number` / `number_at_pos`), of the integer
state of the pickers, and of the `CircularTimePicker` coordinator's
reactive handler cascade, together with theorems settling the spec's
claims about them.

Conventions of the embedding:
* Python floats are modelled as exact real numbers `ℝ`; Python ints as `ℤ`.
* Kivy's reactive properties dispatch their observers synchronously when
  (and only when) a written value actually changes; the coordinator's
  re-entrant handler cascade is modelled by a fuel-indexed iteration that
  reaches its fixed point well within the given fuel.
* Python's `x / 0` raises; over `ℝ` Lean's convention `x / 0 = 0` is used,
  which is only reachable here for inputs no claim touches (noted locally).
-/

open Real

/-- Python `math.radians(d)`: degrees to radians, `d * π / 180`. -/
noncomputable def pyRadians (d : ℝ) : ℝ := d * π / 180

/-- Python `int(x)` on a float: truncation toward zero. -/
noncomputable def pyInt (x : ℝ) : ℤ := if 0 ≤ x then ⌊x⌋ else ⌈x⌉

/-- The quadrant-resolution block of `CircularNumberPicker.number_at_pos`
(src/__init__.py lines 390-401): from the offset `(lx, ly)` of the query
point from the dial center, compute an angle via `atan` with explicit
quadrant corrections.  At `(0, 0)` the Python code evaluates `0 / 0` and
raises; Lean's `0 / 0 = 0` makes this model return `arctan 0 = 0` there
(no claim exercises that point). -/
noncomputable def pyAngle (lx ly : ℝ) : ℝ :=
  if lx = 0 ∧ 0 < ly then π / 2
  else if lx = 0 ∧ ly < 0 then 3 * π / 2
  else
    let a0 := arctan (ly / lx)
    let a1 := if lx < 0 ∧ 0 < ly then a0 + π else a0
    let a2 := if 0 < lx ∧ ly < 0 then a1 + 2 * π else a1
    if lx < 0 ∧ ly < 0 then a2 + π else a2

/-- `CircularNumberPicker._get_shown_items` (lines 247-253): the number of
values `i` in `range(min, max)` with `i % multiples_of == 0`. -/
def shownCount (a b m : ℤ) : ℤ :=
  (((Finset.Ico a b).filter fun i => i % m = 0).card : ℤ)

/-- The set of values given a visible tick label by
`CircularNumberPicker._genitems` (lines 293-300): the loop skips exactly
the `i` in `range(min, max)` with `i % multiples_of != 0`. -/
def tickValues (a b m : ℤ) : Finset ℤ :=
  (Finset.Ico a b).filter fun i => i % m = 0

/-- The tick condition as worded by the spec ("`(value - minValue) mod
stride == 0`"), for comparison with `tickValues` (which the code computes
as `value mod stride == 0`). -/
def specTickValues (a b m : ℤ) : Finset ℤ :=
  (Finset.Ico a b).filter fun i => (i - a) % m = 0

/-- The configuration and geometry of a `CircularNumberPicker` read by its
angle-mapping functions: the value range and stride, the start angle and
winding direction, and the widget geometry (size, the four paddings,
center, and the two `radius_hint` components inherited from
`CircularLayout`). -/
structure CircularNumberPicker where
  min : ℤ
  max : ℤ
  multiples_of : ℤ
  start_angle : ℝ
  direction : String
  width : ℝ
  height : ℝ
  padding0 : ℝ
  padding1 : ℝ
  padding2 : ℝ
  padding3 : ℝ
  center_x : ℝ
  center_y : ℝ
  radius_hint0 : ℝ
  radius_hint1 : ℝ

namespace CircularNumberPicker

/-- `_get_items` (lines 243-245): `max - min`. -/
def items (p : CircularNumberPicker) : ℤ := p.max - p.min

/-- `_get_shown_items` (lines 247-253). -/
def shown_items (p : CircularNumberPicker) : ℤ :=
  shownCount p.min p.max p.multiples_of

/-- `pos_for_number` (lines 346-374): the on-circle center coordinates for
value `n`. -/
noncomputable def pos_for_number (p : CircularNumberPicker) (n : ℤ) : ℝ × ℝ :=
  if p.items = 0 then (0, 0)
  else
    let radius := Min.min (p.width - p.padding0 - p.padding2)
      (p.height - p.padding1 - p.padding3) / 2
    let middle_r := radius * (p.radius_hint0 + p.radius_hint1) / 2
    let cx := p.center_x + p.padding0 - p.padding2
    let cy := p.center_y + p.padding3 - p.padding1
    let sign : ℝ := if p.direction = "cw" then -1 else 1
    let angle_offset :=
      if p.direction = "cw" then 2 * π - pyRadians p.start_angle
      else pyRadians p.start_angle
    let quota := 2 * π / (p.items : ℝ)
    let mult_quota := 2 * π / (p.shown_items : ℝ)
    let angle := angle_offset + (n : ℝ) * sign * quota
    let angle :=
      if p.items = p.shown_items then angle + quota / 2
      else angle - mult_quota / 2
    (Real.cos angle * middle_r + cx, Real.sin angle * middle_r + cy)

/-- `number_at_pos` (lines 376-412): the value whose slot contains the
point `(x, y)`. -/
noncomputable def number_at_pos (p : CircularNumberPicker) (x y : ℝ) : ℤ :=
  if p.items = 0 then p.min
  else
    let cx := p.center_x + p.padding0 - p.padding2
    let cy := p.center_y + p.padding3 - p.padding1
    let lx := x - cx
    let ly := y - cy
    let quota := 2 * π / (p.items : ℝ)
    let mult_quota := 2 * π / (p.shown_items : ℝ)
    let angle := pyAngle lx ly
    let angle := angle + pyRadians p.start_angle
    let angle := if p.direction = "cw" then 2 * π - angle else angle
    let angle := if mult_quota ≠ quota then angle - mult_quota / 2 else angle
    let angle :=
      if angle < 0 then angle + 2 * π
      else if 2 * π < angle then angle - 2 * π
      else angle
    Min.min (pyInt (angle / quota) + p.min) (p.max - 1)

end CircularNumberPicker

/-- The configuration fixed by `CircularHourPicker.__init__` (lines
437-453): range `[1, 13)`, stride 1, clockwise, and (via
`_update_start_angle`) `start_angle = 360 / shown_items / 2 - 90`;
geometry is whatever the host layout assigns. -/
noncomputable def hourPicker (w ht p0 p1 p2 p3 cx cy r0 r1 : ℝ) :
    CircularNumberPicker :=
  { min := 1, max := 13, multiples_of := 1,
    start_angle := 360 / ((shownCount 1 13 1 : ℤ) : ℝ) / 2 - 90,
    direction := "cw",
    width := w, height := ht,
    padding0 := p0, padding1 := p1, padding2 := p2, padding3 := p3,
    center_x := cx, center_y := cy,
    radius_hint0 := r0, radius_hint1 := r1 }

/-- The configuration fixed by `CircularMinutePicker.__init__` (lines
414-430): range `[0, 60)`, stride 5, clockwise, and
`start_angle = -(360 / shown_items / 2) - 90`. -/
noncomputable def minutePicker (w ht p0 p1 p2 p3 cx cy r0 r1 : ℝ) :
    CircularNumberPicker :=
  { min := 0, max := 60, multiples_of := 5,
    start_angle := -(360 / ((shownCount 0 60 5 : ℤ) : ℝ) / 2) - 90,
    direction := "cw",
    width := w, height := ht,
    padding0 := p0, padding1 := p1, padding2 := p2, padding3 := p3,
    center_x := cx, center_y := cy,
    radius_hint0 := r0, radius_hint1 := r1 }

/-- The integer state a `CircularNumberPicker` holds right after its
constructor ran: `range`/`multiples_of` configuration plus `selected`. -/
structure PickerIntState where
  min : ℤ
  max : ℤ
  multiples_of : ℤ
  selected : ℤ
deriving DecidableEq, Repr

/-- `CircularNumberPicker.__init__` (lines 255-291) with keyword-argument
range configuration: property defaults are `min = 0`, `max = 0`,
`multiples_of = 1` unless passed, and line 261 sets
`self.selected = self.min`. -/
def numberPickerInit (kwMin kwMax kwMult : ℤ) : PickerIntState :=
  { min := kwMin, max := kwMax, multiples_of := kwMult, selected := kwMin }

/-- `CircularHourPicker.__init__` (lines 437-450): the base constructor
runs with the property defaults (no keyword arguments are forwarded by the
coordinator), then `min`, `max`, `multiples_of` are assigned; nothing
re-assigns `selected`. -/
def hourPickerInit : PickerIntState :=
  let base := numberPickerInit 0 0 1
  { base with min := 1, max := 13, multiples_of := 1 }

/-- `CircularMinutePicker.__init__` (lines 418-427), analogously. -/
def minutePickerInit : PickerIntState :=
  let base := numberPickerInit 0 0 1
  { base with min := 0, max := 60, multiples_of := 5 }

/-- Which of the two dials the coordinator currently shows
(`CircularTimePicker.picker`). -/
inductive ActivePicker
  | hours
  | minutes
deriving DecidableEq, Repr

/-- The integer/boolean state of a `CircularTimePicker` (lines 455-618)
together with the `selected` values of its two dials. -/
structure CircularTimePicker where
  hours : ℤ
  minutes : ℤ
  am : Bool
  picker : ActivePicker
  h_selected : ℤ
  m_selected : ℤ
deriving DecidableEq, Repr

namespace CircularTimePicker

/-- `_get_picker`'s `selected` (lines 545-549): the active dial's value. -/
def activeSelected (s : CircularTimePicker) : ℤ :=
  match s.picker with
  | .hours => s.h_selected
  | .minutes => s.m_selected

/-- Write the active dial's `selected`. -/
def setActiveSelected (v : ℤ) (s : CircularTimePicker) : CircularTimePicker :=
  match s.picker with
  | .hours => { s with h_selected := v }
  | .minutes => { s with m_selected := v }

/-- `on_selected` (lines 592-603): recompute canonical `hours`/`minutes`
from the active dial's `selected`. -/
def on_selected (s : CircularTimePicker) : CircularTimePicker :=
  match s.picker with
  | .hours =>
    let hrs := if s.am then s.h_selected else s.h_selected + 12
    let hrs :=
      if hrs = 24 ∧ s.am = false then 12
      else if hrs = 12 ∧ s.am = true then 0
      else hrs
    { s with hours := hrs }
  | .minutes => { s with minutes := s.m_selected }

/-- `on_time_list` (lines 605-612): push canonical time into the active
dial.  The hour branch is Python's
`hours == 0 and 12 or _am and hours or hours - 12`, i.e. `12` when
`hours == 0`, else `hours` when `_am`, else `hours - 12` — note it tests
the `_am` flag, not `hours < 12`. -/
def on_time_list (s : CircularTimePicker) : CircularTimePicker :=
  match s.picker with
  | .hours =>
    { s with h_selected :=
        if s.hours = 0 then 12 else if s.am then s.hours else s.hours - 12 }
  | .minutes => { s with m_selected := s.minutes }

/-- `on_ampm` (lines 614-618): force `hours` to agree with the new flag. -/
def on_ampm (s : CircularTimePicker) : CircularTimePicker :=
  if s.am then
    { s with hours := if s.hours < 12 then s.hours else s.hours - 12 }
  else
    { s with hours := if 12 ≤ s.hours then s.hours else s.hours + 12 }

/-- The coordinator's re-entrant observer cascade: a write to the active
dial's `selected` runs `on_selected` (bound in `_switch_picker`, line 640),
whose `hours`/`minutes` write runs `on_time_list` (bound at line 569),
whose `selected` write runs `on_selected` again — each hop happening only
when the written value actually changed, per Kivy property dispatch.
`next = true` means `on_selected` runs next, `next = false` means
`on_time_list` does.  The cascade reaches a fixed point within four
handler runs from any state; the fuel argument (always supplied as 6)
makes the recursion structural. -/
def chain : ℕ → Bool → CircularTimePicker → CircularTimePicker
  | 0, _, s => s
  | f + 1, true, s =>
    let s' := on_selected s
    if s'.hours = s.hours ∧ s'.minutes = s.minutes then s' else chain f false s'
  | f + 1, false, s =>
    let s' := on_time_list s
    if activeSelected s' = activeSelected s then s' else chain f true s'

/-- A pointer interaction (or any other writer) setting the active dial's
`selected` to `v`, with the ensuing cascade. -/
def selectValue (v : ℤ) (s : CircularTimePicker) : CircularTimePicker :=
  if activeSelected s = v then s else chain 6 true (setActiveSelected v s)

/-- A programmatic write of `hours`, with the ensuing cascade. -/
def setHours (h : ℤ) (s : CircularTimePicker) : CircularTimePicker :=
  if s.hours = h then s else chain 6 false { s with hours := h }

/-- A programmatic write of `minutes`, with the ensuing cascade. -/
def setMinutes (m : ℤ) (s : CircularTimePicker) : CircularTimePicker :=
  if s.minutes = m then s else chain 6 false { s with minutes := m }

/-- Assigning `time_list = [h, m]`: the reference-list property writes
`hours` then `minutes`, each dispatching on change. -/
def setTimeList (h m : ℤ) (s : CircularTimePicker) : CircularTimePicker :=
  setMinutes m (setHours h s)

/-- Writing the `_am` flag: on change, `on_ampm` runs (bound at line 569)
and its `hours` write cascades. -/
def setAm (b : Bool) (s : CircularTimePicker) : CircularTimePicker :=
  if s.am = b then s
  else
    let s1 := { s with am := b }
    let s2 := on_ampm s1
    if s2.hours = s1.hours then s2 else chain 6 false s2

/-- `CircularTimePicker.__init__` (lines 565-575) through its scheduled
callbacks: fields are set (with `_am := hours < 12`, lines 567-568), both
dials start with `selected = 0`, then the scheduled `on_selected` runs
(its `hours` write dispatching the already-bound `on_time_list`, but
`selected` writes not yet dispatching `on_selected` — `_switch_picker`
binds that only afterwards), then the scheduled `on_time_list` runs. -/
def init (h m : ℤ) : CircularTimePicker :=
  let s0 : CircularTimePicker :=
    { hours := h, minutes := m, am := decide (h < 12), picker := .hours,
      h_selected := 0, m_selected := 0 }
  let s1 := on_selected s0
  let s1 := if s1.hours = s0.hours ∧ s1.minutes = s0.minutes then s1
            else on_time_list s1
  on_time_list s1

end CircularTimePicker

/-- A `datetime.time` value (hour/minute part). -/
structure PyTime where
  hour : ℤ
  minute : ℤ
deriving DecidableEq, Repr

/-- `_get_time` (lines 535-536): `datetime.time(*self.time_list)`, which
raises `ValueError` (here: `none`) outside hour range 0-23 / minute range
0-59. -/
def CircularTimePicker.getTime (s : CircularTimePicker) : Option PyTime :=
  if 0 ≤ s.hours ∧ s.hours ≤ 23 ∧ 0 ≤ s.minutes ∧ s.minutes ≤ 59 then
    some ⟨s.hours, s.minutes⟩
  else none

/-- `_set_time` (lines 537-538): `self.time_list = [dt.hour, dt.minute]`. -/
def CircularTimePicker.setTime (t : PyTime) (s : CircularTimePicker) :
    CircularTimePicker :=
  CircularTimePicker.setTimeList t.hour t.minute s

/-- The pointer-interaction state of one dial: its `selected` value and
the set of pointers it currently grabs. -/
structure DialTouchState where
  selected : ℤ
  grabbed : List ℕ
deriving DecidableEq, Repr

/-- A pointer event: down/move at a position, or up, each carrying the
pointer's identity. -/
inductive TouchEvent
  | down (pid : ℕ) (x y : ℝ)
  | move (pid : ℕ) (x y : ℝ)
  | up (pid : ℕ)

/-- `on_touch_down` / `on_touch_move` / `on_touch_up` (lines 302-316) as a
transition system.  `collide` is the host framework's hit test
(`collide_point`), `numberAt` the dial's `number_at_pos`.  A down inside
the hit region grabs the pointer and selects; a move only acts when this
dial grabbed the pointer (`touch.grab_current is self`), otherwise the
base class merely forwards the event to the dial's label children, which
never write `selected`; an up releases the grab. -/
def touchStep (collide : ℝ → ℝ → Bool) (numberAt : ℝ → ℝ → ℤ)
    (s : DialTouchState) : TouchEvent → DialTouchState
  | .down pid x y =>
    if collide x y then { selected := numberAt x y, grabbed := pid :: s.grabbed }
    else s
  | .move pid x y =>
    if pid ∈ s.grabbed then { s with selected := numberAt x y } else s
  | .up pid => { s with grabbed := s.grabbed.erase pid }

/-- Process a list of pointer events in order. -/
def touchRun (collide : ℝ → ℝ → Bool) (numberAt : ℝ → ℝ → ℤ)
    (evs : List TouchEvent) (s : DialTouchState) : DialTouchState :=
  evs.foldl (touchStep collide numberAt) s

/-- A degenerate picker configuration with an empty value range
(`min = max = 0`, so `items = 0`) whose dial center sits away from the
coordinate origin. -/
noncomputable def degeneratePicker : CircularNumberPicker :=
  { min := 0, max := 0, multiples_of := 1, start_angle := 0, direction := "cw",
    width := 2, height := 2,
    padding0 := 0, padding1 := 0, padding2 := 0, padding3 := 0,
    center_x := 5, center_y := 0, radius_hint0 := 1, radius_hint1 := 1 }

/-- The hour dial on concrete geometry: a 2x2 widget with no padding,
centered at the origin, `radius_hint = (1, 1)`, so the tick circle is the
unit circle. -/
noncomputable def hourPickerUnit : CircularNumberPicker :=
  hourPicker 2 2 0 0 0 0 0 0 1 1

/-- The minute dial on the same unit-circle geometry. -/
noncomputable def minutePickerUnit : CircularNumberPicker :=
  minutePicker 2 2 0 0 0 0 0 0 1 1

namespace CircularTimePicker

lemma chain_false_succ (f : ℕ) (s : CircularTimePicker) :
    chain (f + 1) false s =
      (let s' := on_time_list s
       if activeSelected s' = activeSelected s then s' else chain f true s') := rfl

lemma chain_true_succ (f : ℕ) (s : CircularTimePicker) :
    chain (f + 1) true s =
      (let s' := on_selected s
       if s'.hours = s.hours ∧ s'.minutes = s.minutes then s'
       else chain f false s') := rfl

lemma on_time_list_hours (h m : ℤ) (am : Bool) (hs ms : ℤ) :
    on_time_list ⟨h, m, am, .hours, hs, ms⟩ =
      ⟨h, m, am, .hours, if h = 0 then 12 else if am then h else h - 12, ms⟩ := rfl

lemma on_time_list_minutes (h m : ℤ) (am : Bool) (hs ms : ℤ) :
    on_time_list ⟨h, m, am, .minutes, hs, ms⟩ = ⟨h, m, am, .minutes, hs, m⟩ := rfl

lemma on_selected_hours (h m : ℤ) (am : Bool) (hs ms : ℤ) :
    on_selected ⟨h, m, am, .hours, hs, ms⟩ =
      ⟨(if (if am then hs else hs + 12) = 24 ∧ am = false then 12
        else if (if am then hs else hs + 12) = 12 ∧ am = true then 0
        else if am then hs else hs + 12), m, am, .hours, hs, ms⟩ := rfl

lemma on_selected_minutes (h m : ℤ) (am : Bool) (hs ms : ℤ) :
    on_selected ⟨h, m, am, .minutes, hs, ms⟩ = ⟨h, ms, am, .minutes, hs, ms⟩ := rfl

lemma activeSelected_hours (h m : ℤ) (am : Bool) (hs ms : ℤ) :
    activeSelected ⟨h, m, am, .hours, hs, ms⟩ = hs := rfl

lemma activeSelected_minutes (h m : ℤ) (am : Bool) (hs ms : ℤ) :
    activeSelected ⟨h, m, am, .minutes, hs, ms⟩ = ms := rfl

/-- From any state whose `am` flag agrees with its in-range `hours`, the
`on_time_list` cascade settles immediately after pushing the 12-hour value
into the hour dial. -/
lemma chain_settle_hours (s : CircularTimePicker) (hp : s.picker = .hours)
    (hcons : s.am = decide (s.hours < 12)) (h0 : 0 ≤ s.hours)
    (h24 : s.hours < 24) :
    chain 6 false s =
      { s with h_selected :=
          if s.hours = 0 then 12 else if s.am then s.hours else s.hours - 12 } := by
  obtain ⟨h, m, am, pk, hs, ms⟩ := s
  simp only at hp hcons h0 h24
  subst hp
  show chain 6 false _ = ⟨h, m, am, .hours,
    if h = 0 then 12 else if am then h else h - 12, ms⟩
  rw [show (6 : ℕ) = 5 + 1 from rfl, chain_false_succ]
  simp only [on_time_list_hours, activeSelected_hours]
  cases am with
  | false =>
    have h12 : 12 ≤ h := by
      have := hcons.symm
      simp only [decide_eq_false_iff_not, not_lt] at this
      exact this
    have hne : h ≠ 0 := by omega
    norm_num [hne]
    intro hsel
    rw [show (5 : ℕ) = 4 + 1 from rfl, chain_true_succ]
    simp only [on_selected_hours]
    norm_num
    simp [show h ≠ 24 by omega]
  | true =>
    have hlt : h < 12 := by
      have := hcons.symm
      simp only [decide_eq_true_eq] at this
      exact this
    by_cases hz : h = 0
    · subst hz
      norm_num
      intro hsel
      rw [show (5 : ℕ) = 4 + 1 from rfl, chain_true_succ]
      simp only [on_selected_hours]
      norm_num
    · norm_num [hz]
      intro hsel
      rw [show (5 : ℕ) = 4 + 1 from rfl, chain_true_succ]
      simp only [on_selected_hours]
      norm_num [show h ≠ 12 by omega]

/-- With the minute dial active, the `on_time_list` cascade just copies
`minutes` into the dial. -/
lemma chain_settle_minutes (s : CircularTimePicker) (hp : s.picker = .minutes) :
    chain 6 false s = { s with m_selected := s.minutes } := by
  obtain ⟨h, m, am, pk, hs, ms⟩ := s
  simp only at hp
  subst hp
  show chain 6 false _ = ⟨h, m, am, .minutes, hs, m⟩
  rw [show (6 : ℕ) = 5 + 1 from rfl, chain_false_succ]
  simp only [on_time_list_minutes, activeSelected_minutes]
  split_ifs with hsel
  · rfl
  · rw [show (5 : ℕ) = 4 + 1 from rfl, chain_true_succ]
    simp only [on_selected_minutes]
    norm_num

end CircularTimePicker

namespace CircularTimePicker

lemma select_settle_hours (h m : ℤ) (am : Bool) (v ms : ℤ)
    (h1 : 1 ≤ v) (h12 : v ≤ 12) :
    chain 6 true ⟨h, m, am, .hours, v, ms⟩ =
      ⟨(if v = 12 then (if am then 0 else 12) else (if am then v else v + 12)),
       m, am, .hours,
       (if am = false ∧ v = 12 ∧ h ≠ 12 then 0 else v), ms⟩ := by
  rw [show (6 : ℕ) = 5 + 1 from rfl, chain_true_succ]
  simp only [on_selected_hours]
  cases am with
  | true =>
    by_cases hv : v = 12
    · subst hv
      norm_num
      intro hh
      rw [show (5 : ℕ) = 4 + 1 from rfl, chain_false_succ]
      simp only [on_time_list_hours, activeSelected_hours]
      norm_num
    · norm_num [hv, show v ≠ 24 by omega]
      intro hh
      rw [show (5 : ℕ) = 4 + 1 from rfl, chain_false_succ]
      simp only [on_time_list_hours, activeSelected_hours]
      norm_num [show v ≠ 0 by omega]
  | false =>
    by_cases hv : v = 12
    · subst hv
      norm_num
      split_ifs with hh hh2
      · rfl
      · omega
      · omega
      · rw [show (5 : ℕ) = 4 + 1 from rfl, chain_false_succ]
        simp only [on_time_list_hours, activeSelected_hours]
        norm_num
        rw [show (4 : ℕ) = 3 + 1 from rfl, chain_true_succ]
        simp only [on_selected_hours]
        norm_num
    · norm_num [hv, show v + 12 ≠ 24 by omega, show v + 12 ≠ 12 by omega]
      intro hh
      rw [show (5 : ℕ) = 4 + 1 from rfl, chain_false_succ]
      simp only [on_time_list_hours, activeSelected_hours]
      norm_num [show v + 12 ≠ 0 by omega]

end CircularTimePicker

namespace CircularTimePicker

lemma select_settle_minutes (h m : ℤ) (am : Bool) (hs v : ℤ) :
    chain 6 true ⟨h, m, am, .minutes, hs, v⟩ = ⟨h, v, am, .minutes, hs, v⟩ := by
  rw [show (6 : ℕ) = 5 + 1 from rfl, chain_true_succ]
  simp only [on_selected_minutes]
  norm_num
  intro hv
  rw [show (5 : ℕ) = 4 + 1 from rfl, chain_false_succ]
  simp only [on_time_list_minutes, activeSelected_minutes]
  norm_num

lemma init_closed (h m : ℤ) :
    init h m =
      if h < 12 then ⟨0, m, true, .hours, 12, 0⟩
      else ⟨12, m, false, .hours, 0, 0⟩ := by
  by_cases hlt : h < 12
  · have hd : decide (h < 12) = true := decide_eq_true hlt
    simp only [init, hd, on_selected_hours, on_time_list_hours, if_pos hlt]
    norm_num
    by_cases hz : h = 0
    · subst hz
      rw [if_pos rfl]
      simp [on_time_list_hours]
    · rw [if_neg (fun hh => hz hh.symm)]
      simp [on_time_list_hours]
  · have hd : decide (h < 12) = false := decide_eq_false hlt
    simp only [init, hd, on_selected_hours, on_time_list_hours, if_neg hlt]
    norm_num
    simp [on_time_list_hours]

end CircularTimePicker

namespace CircularTimePicker

lemma setActiveSelected_hours (v h m : ℤ) (am : Bool) (hs ms : ℤ) :
    setActiveSelected v ⟨h, m, am, .hours, hs, ms⟩ = ⟨h, m, am, .hours, v, ms⟩ := rfl

lemma setActiveSelected_minutes (v h m : ℤ) (am : Bool) (hs ms : ℤ) :
    setActiveSelected v ⟨h, m, am, .minutes, hs, ms⟩ = ⟨h, m, am, .minutes, hs, v⟩ := rfl

lemma chain_settle_hours_lit (h m : ℤ) (am : Bool) (hs ms : ℤ)
    (hcons : am = decide (h < 12)) (h0 : 0 ≤ h) (h24 : h < 24) :
    chain 6 false ⟨h, m, am, .hours, hs, ms⟩ =
      ⟨h, m, am, .hours, if h = 0 then 12 else if am then h else h - 12, ms⟩ :=
  chain_settle_hours ⟨h, m, am, .hours, hs, ms⟩ rfl hcons h0 h24

lemma chain_settle_minutes_lit (h m : ℤ) (am : Bool) (hs ms : ℤ) :
    chain 6 false ⟨h, m, am, .minutes, hs, ms⟩ = ⟨h, m, am, .minutes, hs, m⟩ :=
  chain_settle_minutes ⟨h, m, am, .minutes, hs, ms⟩ rfl

/-- Setting `time_list = [h, m]` with the hour dial active: canonical time
ends at `(h, m)` and, whenever either property actually changed, the hour
dial holds the pushed 12-hour value. -/
lemma setTimeList_settle_hours (h m sh sm : ℤ) (am : Bool) (hs ms : ℤ)
    (hcons : am = decide (h < 12)) (h0 : 0 ≤ h) (h24 : h < 24) :
    setTimeList h m ⟨sh, sm, am, .hours, hs, ms⟩ =
      ⟨h, m, am, .hours,
       (if sh = h ∧ sm = m then hs
        else if h = 0 then 12 else if am then h else h - 12), ms⟩ := by
  simp only [setTimeList, setHours, setMinutes]
  by_cases se : sh = h
  · subst se
    rw [if_pos rfl]
    by_cases smm : sm = m
    · subst smm
      rw [if_pos rfl]
      norm_num
    · rw [if_neg smm, chain_settle_hours_lit sh m am hs ms hcons h0 h24]
      simp [smm]
  · rw [if_neg se, chain_settle_hours_lit h sm am hs ms hcons h0 h24]
    have hgoal : ¬(sh = h ∧ sm = m) := fun hc => se hc.1
    rw [if_neg hgoal]
    by_cases smm : sm = m
    · subst smm
      norm_num
    · norm_num [smm]
      rw [chain_settle_hours_lit h m am _ ms hcons h0 h24]

/-- Setting `time_list = [h, m]` with the minute dial active: canonical
time ends at `(h, m)` and, whenever either property actually changed, the
minute dial holds `m`. -/
lemma setTimeList_settle_minutes (h m sh sm : ℤ) (am : Bool) (hs ms : ℤ) :
    setTimeList h m ⟨sh, sm, am, .minutes, hs, ms⟩ =
      ⟨h, m, am, .minutes, hs, if sh = h ∧ sm = m then ms else m⟩ := by
  simp only [setTimeList, setHours, setMinutes]
  by_cases se : sh = h
  · subst se
    rw [if_pos rfl]
    by_cases smm : sm = m
    · subst smm
      rw [if_pos rfl]
      norm_num
    · rw [if_neg smm, chain_settle_minutes_lit sh m am hs ms]
      simp [smm]
  · rw [if_neg se, chain_settle_minutes_lit h sm am hs ms]
    have hgoal : ¬(sh = h ∧ sm = m) := fun hc => se hc.1
    rw [if_neg hgoal]
    by_cases smm : sm = m
    · subst smm
      norm_num
    · norm_num [smm]
      exact chain_settle_minutes_lit h m am hs sm

end CircularTimePicker

/-- C2: whenever the active dial's `selected` changes, the coordinator's
`on_selected` cascade recomputes canonical time: with the hour dial
active and `selected` in `[1, 12]`, `hours` becomes `selected` (AM) or
`selected + 12` (PM) for `1..11`, and `0` (AM) or `12` (PM) for `12`;
with the minute dial active, `minutes` becomes `selected`. -/
theorem c2_selected_sync (s : CircularTimePicker) (v : ℤ) :
    (s.picker = .hours → 1 ≤ v → v ≤ 12 → s.h_selected ≠ v →
      (s.selectValue v).hours =
        if v = 12 then (if s.am then 0 else 12)
        else (if s.am then v else v + 12))
    ∧ (s.picker = .minutes → s.m_selected ≠ v →
      (s.selectValue v).minutes = v) := by
  obtain ⟨h, m, am, pk, hs, ms⟩ := s
  constructor
  · intro hp h1 h12 hne
    obtain rfl := hp
    simp only at hne
    simp only [CircularTimePicker.selectValue,
      CircularTimePicker.activeSelected_hours,
      CircularTimePicker.setActiveSelected_hours, if_neg hne,
      CircularTimePicker.select_settle_hours h m am v ms h1 h12]
  · intro hp hne
    obtain rfl := hp
    simp only at hne
    simp only [CircularTimePicker.selectValue,
      CircularTimePicker.activeSelected_minutes,
      CircularTimePicker.setActiveSelected_minutes, if_neg hne,
      CircularTimePicker.select_settle_minutes h m am hs v]

/-- Witness for C2 at concrete inputs: pointer-selecting 5 on the hour
dial of a fresh picker yields `hours = 5`; selecting 7 on a minute dial
yields `minutes = 7`. -/
theorem c2_selected_sync_witness :
    (CircularTimePicker.selectValue 5 ⟨0, 0, true, .hours, 12, 0⟩).hours = 5 ∧
    (CircularTimePicker.selectValue 7 ⟨0, 0, true, .minutes, 12, 0⟩).minutes = 7 := by
  constructor
  · have := (c2_selected_sync ⟨0, 0, true, .hours, 12, 0⟩ 5).1 rfl (by norm_num)
      (by norm_num) (by norm_num)
    simpa using this
  · exact (c2_selected_sync ⟨0, 0, true, .minutes, 12, 0⟩ 7).2 rfl (by norm_num)

/-- C3 fails as stated: from a freshly constructed coordinator (which is
in AM state), programmatically setting `(hours, minutes) = (15, 45)`
leaves the hour dial's `selected` at `15` (not `3`) and the AM flag still
set (not PM), because `on_time_list` branches on the stale `_am` flag
rather than on `hours < 12`. -/
theorem c3_counterexample :
    (CircularTimePicker.setTimeList 15 45 (CircularTimePicker.init 0 0)).h_selected = 15 ∧
    (CircularTimePicker.setTimeList 15 45 (CircularTimePicker.init 0 0)).am = true ∧
    ¬(CircularTimePicker.setTimeList 15 45 (CircularTimePicker.init 0 0)).h_selected = 3 := by
  decide

/-- C3 amended: the reverse sync pushes
`hours == 0 → 12, hours < 12 → hours, else hours - 12` into the hour dial
(resp. `minutes` into the minute dial) provided the `_am` flag agrees
with the new `hours` — the code tests `_am`, which only coincides with
`hours < 12` under that agreement.  The `(15, 45) ↦ 3` example holds
only from a PM state. -/
theorem c3_reverse_sync_amended (s : CircularTimePicker) (h m : ℤ)
    (hcons : s.am = decide (h < 12)) (h0 : 0 ≤ h) (h24 : h < 24)
    (hchg : ¬(s.hours = h ∧ s.minutes = m)) :
    (s.picker = .hours →
      (s.setTimeList h m).h_selected =
          (if h = 0 then 12 else if h < 12 then h else h - 12) ∧
      (s.setTimeList h m).hours = h ∧ (s.setTimeList h m).minutes = m)
    ∧ (s.picker = .minutes →
      (s.setTimeList h m).m_selected = m ∧
      (s.setTimeList h m).hours = h ∧ (s.setTimeList h m).minutes = m) := by
  obtain ⟨sh, sm, am, pk, hs, ms⟩ := s
  simp only at hcons hchg
  constructor
  · intro hp
    obtain rfl := hp
    rw [CircularTimePicker.setTimeList_settle_hours h m sh sm am hs ms hcons h0 h24]
    refine ⟨?_, rfl, rfl⟩
    rw [if_neg hchg, hcons]
    simp only [decide_eq_true_eq]
  · intro hp
    obtain rfl := hp
    rw [CircularTimePicker.setTimeList_settle_minutes h m sh sm am hs ms]
    exact ⟨by rw [if_neg hchg], rfl, rfl⟩

/-- Witness for C3 amended: from a PM-consistent state, setting
`(15, 45)` does push `3` into the hour dial; a minute-dial instance
receives `45`. -/
theorem c3_reverse_sync_amended_witness :
    ((CircularTimePicker.setTimeList 15 45 ⟨12, 0, false, .hours, 0, 0⟩).h_selected = 3 ∧
      (CircularTimePicker.setTimeList 15 45 ⟨12, 0, false, .hours, 0, 0⟩).hours = 15 ∧
      (CircularTimePicker.setTimeList 15 45 ⟨12, 0, false, .hours, 0, 0⟩).minutes = 45) ∧
    (CircularTimePicker.setTimeList 15 45 ⟨12, 0, false, .minutes, 0, 0⟩).m_selected = 45 := by
  constructor
  · have := (c3_reverse_sync_amended ⟨12, 0, false, .hours, 0, 0⟩ 15 45 (by norm_num)
      (by norm_num) (by norm_num) (by norm_num)).1 rfl
    simpa using this
  · exact ((c3_reverse_sync_amended ⟨12, 0, false, .minutes, 0, 0⟩ 15 45 (by norm_num)
      (by norm_num) (by norm_num) (by norm_num)).2 rfl).1

namespace CircularTimePicker

lemma on_ampm_true (h m : ℤ) (pk : ActivePicker) (hs ms : ℤ) :
    on_ampm ⟨h, m, true, pk, hs, ms⟩ =
      ⟨if h < 12 then h else h - 12, m, true, pk, hs, ms⟩ := rfl

lemma on_ampm_false (h m : ℤ) (pk : ActivePicker) (hs ms : ℤ) :
    on_ampm ⟨h, m, false, pk, hs, ms⟩ =
      ⟨if 12 ≤ h then h else h + 12, m, false, pk, hs, ms⟩ := rfl

/-- Writing `_am := b` from a state with the opposite flag and `hours` in
`[0, 24)` settles with `am = b` and `hours` forced into the matching
half-day, for either active dial. -/
lemma setAm_settle (h m : ℤ) (am : Bool) (pk : ActivePicker) (hs ms : ℤ)
    (b : Bool) (hne : am ≠ b) (h0 : 0 ≤ h) (h24 : h < 24) :
    ((⟨h, m, am, pk, hs, ms⟩ : CircularTimePicker).setAm b).hours =
        (if b then (if h < 12 then h else h - 12)
         else (if 12 ≤ h then h else h + 12)) ∧
    ((⟨h, m, am, pk, hs, ms⟩ : CircularTimePicker).setAm b).am = b ∧
    ((⟨h, m, am, pk, hs, ms⟩ : CircularTimePicker).setAm b).minutes = m ∧
    ((⟨h, m, am, pk, hs, ms⟩ : CircularTimePicker).setAm b).picker = pk := by
  cases b with
  | true =>
    simp only [setAm, on_ampm_true, if_true]
    rw [if_neg (by simpa using hne)]
    by_cases hlt : h < 12
    · rw [if_pos hlt, if_pos rfl]
      norm_num
    · rw [if_neg hlt, if_neg (show ¬h - 12 = h by omega)]
      cases pk with
      | hours =>
        rw [chain_settle_hours_lit (h - 12) m true hs ms
          ((decide_eq_true (show h - 12 < 12 by omega)).symm)
          (by omega) (by omega)]
        norm_num
      | minutes =>
        rw [chain_settle_minutes_lit (h - 12) m true hs ms]
        norm_num
  | false =>
    simp only [setAm, on_ampm_false, Bool.if_false_left]
    rw [if_neg (by simpa using hne)]
    by_cases hge : 12 ≤ h
    · rw [if_pos hge, if_pos rfl]
      norm_num
    · rw [if_neg hge, if_neg (show ¬h + 12 = h by omega)]
      cases pk with
      | hours =>
        rw [chain_settle_hours_lit (h + 12) m false hs ms
          ((decide_eq_false (show ¬h + 12 < 12 by omega)).symm)
          (by omega) (by omega)]
        norm_num
      | minutes =>
        rw [chain_settle_minutes_lit (h + 12) m false hs ms]
        norm_num

end CircularTimePicker

namespace CircularTimePicker

/-- Projection form of `setAm_settle` for arbitrary states. -/
lemma setAm_fields (s : CircularTimePicker) (b : Bool) (hne : s.am ≠ b)
    (h0 : 0 ≤ s.hours) (h24 : s.hours < 24) :
    (s.setAm b).hours =
        (if b then (if s.hours < 12 then s.hours else s.hours - 12)
         else (if 12 ≤ s.hours then s.hours else s.hours + 12)) ∧
    (s.setAm b).am = b := by
  obtain ⟨h, m, am, pk, hs, ms⟩ := s
  have h' := setAm_settle h m am pk hs ms b hne h0 h24
  exact ⟨h'.1, h'.2.1⟩

end CircularTimePicker

/-- C4 fails as stated for arbitrary starting states: the AM-with-PM-hours
state `(hours = 15, _am = true)` is reachable (set the time of a fresh
picker to 15:45), and toggling AM→PM→AM from it yields `hours = 3`, not
the original 15. -/
theorem c4_counterexample :
    ((CircularTimePicker.setTimeList 15 45 (CircularTimePicker.init 0 0)).am = true ∧
      (CircularTimePicker.setTimeList 15 45 (CircularTimePicker.init 0 0)).hours = 15) ∧
    (((CircularTimePicker.setTimeList 15 45
        (CircularTimePicker.init 0 0)).setAm false).setAm true).hours = 3 ∧
    ¬(((CircularTimePicker.setTimeList 15 45
        (CircularTimePicker.init 0 0)).setAm false).setAm true).hours = 15 := by
  decide

/-- C4 amended: setting `isAM` true subtracts 12 from `hours` exactly when
`hours ≥ 12`, and setting it false adds 12 exactly when `hours < 12`
(both for `hours` in `[0, 24)`); the AM→PM→AM roundtrip restores `hours`
for starting states whose `hours` lies in `[0, 12)` (i.e. states where the
AM flag agrees with `hours`), but not in general. -/
theorem c4_ampm_toggle_amended (s : CircularTimePicker) :
    (s.am = false → 0 ≤ s.hours → s.hours < 24 →
      (s.setAm true).hours = (if s.hours < 12 then s.hours else s.hours - 12) ∧
      (s.setAm true).hours < 12)
    ∧ (s.am = true → 0 ≤ s.hours → s.hours < 24 →
      (s.setAm false).hours = (if 12 ≤ s.hours then s.hours else s.hours + 12) ∧
      12 ≤ (s.setAm false).hours)
    ∧ (s.am = true → 0 ≤ s.hours → s.hours < 12 →
      ((s.setAm false).setAm true).hours = s.hours) := by
  refine ⟨?_, ?_, ?_⟩
  · intro ham h0 h24
    have hA := CircularTimePicker.setAm_fields s true (by rw [ham]; simp) h0 h24
    have e1 : (s.setAm true).hours = if s.hours < 12 then s.hours else s.hours - 12 := by
      rw [hA.1]
      simp
    refine ⟨e1, ?_⟩
    rw [e1]
    split_ifs <;> omega
  · intro ham h0 h24
    have hA := CircularTimePicker.setAm_fields s false (by rw [ham]; simp) h0 h24
    have e1 : (s.setAm false).hours = if 12 ≤ s.hours then s.hours else s.hours + 12 := by
      rw [hA.1]
      simp
    refine ⟨e1, ?_⟩
    rw [e1]
    split_ifs <;> omega
  · intro ham h0 h12
    have hA := CircularTimePicker.setAm_fields s false (by rw [ham]; simp) h0 (by omega)
    have e1 : (s.setAm false).hours = s.hours + 12 := by
      rw [hA.1]
      simp only [Bool.false_eq_true, if_false]
      rw [if_neg (by omega)]
    have hB := CircularTimePicker.setAm_fields (s.setAm false) true
      (by rw [hA.2]; simp) (by rw [e1]; omega) (by rw [e1]; omega)
    rw [hB.1, if_pos rfl, e1, if_neg (show ¬s.hours + 12 < 12 by omega)]
    omega

/-- Witness for C4 amended at concrete states: toggles on an 8 AM picker
and on a 3 PM picker behave as described, and AM→PM→AM from 8 AM returns
to 8. -/
theorem c4_ampm_toggle_amended_witness :
    ((⟨15, 0, false, .hours, 3, 0⟩ : CircularTimePicker).setAm true).hours = 3 ∧
    ((⟨8, 0, true, .hours, 8, 0⟩ : CircularTimePicker).setAm false).hours = 20 ∧
    (((⟨8, 0, true, .hours, 8, 0⟩ : CircularTimePicker).setAm false).setAm true).hours = 8 := by
  refine ⟨?_, ?_, ?_⟩
  · have := ((c4_ampm_toggle_amended ⟨15, 0, false, .hours, 3, 0⟩).1 rfl
      (by norm_num) (by norm_num)).1
    simpa using this
  · have := ((c4_ampm_toggle_amended ⟨8, 0, true, .hours, 8, 0⟩).2.1 rfl
      (by norm_num) (by norm_num)).1
    simpa using this
  · exact (c4_ampm_toggle_amended ⟨8, 0, true, .hours, 8, 0⟩).2.2 rfl
      (by norm_num) (by norm_num)

/-- C5 fails as stated: programmatically setting `hours := 15` on a fresh
(AM) coordinator is a settle point where `_am` is still true while
`hours = 15 ≥ 12` — nothing re-syncs `_am` when `hours` is written. -/
theorem c5_counterexample :
    (CircularTimePicker.setHours 15 (CircularTimePicker.init 0 0)).am = true ∧
    (CircularTimePicker.setHours 15 (CircularTimePicker.init 0 0)).hours = 15 ∧
    ¬((CircularTimePicker.setHours 15 (CircularTimePicker.init 0 0)).am = true ↔
      (CircularTimePicker.setHours 15 (CircularTimePicker.init 0 0)).hours < 12) := by
  decide

/-- C5 amended: the `isAM ↔ hours < 12` agreement holds after
construction, after pointer-driven `selected` changes (hour dial values
in `[1, 12]`, any minute value), and after every completed toggle from
in-range `hours` — but not after programmatic `hours`/`minutes` writes,
which never update `_am`. -/
theorem c5_invariant_amended :
    (∀ h m : ℤ, ((CircularTimePicker.init h m).am = true ↔
        (CircularTimePicker.init h m).hours < 12))
    ∧ (∀ (s : CircularTimePicker) (v : ℤ), (s.am = true ↔ s.hours < 12) →
        (s.picker = .hours → 1 ≤ v → v ≤ 12 →
          ((s.selectValue v).am = true ↔ (s.selectValue v).hours < 12))
        ∧ (s.picker = .minutes →
          ((s.selectValue v).am = true ↔ (s.selectValue v).hours < 12)))
    ∧ (∀ (s : CircularTimePicker) (b : Bool), s.am ≠ b →
        0 ≤ s.hours → s.hours < 24 →
        ((s.setAm b).am = true ↔ (s.setAm b).hours < 12)) := by
  refine ⟨?_, ?_, ?_⟩
  · intro h m
    rw [CircularTimePicker.init_closed]
    by_cases hlt : h < 12
    · rw [if_pos hlt]
      norm_num
    · rw [if_neg hlt]
      norm_num
  · intro s v hinv
    obtain ⟨h, m, am, pk, hs, ms⟩ := s
    constructor
    · intro hp h1 h12
      obtain rfl := hp
      simp only [CircularTimePicker.selectValue,
        CircularTimePicker.activeSelected_hours,
        CircularTimePicker.setActiveSelected_hours]
      by_cases hv : hs = v
      · rw [if_pos hv]
        exact hinv
      · rw [if_neg hv, CircularTimePicker.select_settle_hours h m am v ms h1 h12]
        cases am with
        | true =>
          norm_num
          split_ifs <;> omega
        | false =>
          norm_num
          split_ifs <;> omega
    · intro hp
      obtain rfl := hp
      simp only [CircularTimePicker.selectValue,
        CircularTimePicker.activeSelected_minutes,
        CircularTimePicker.setActiveSelected_minutes]
      by_cases hv : ms = v
      · rw [if_pos hv]
        exact hinv
      · rw [if_neg hv, CircularTimePicker.select_settle_minutes h m am hs v]
        exact hinv
  · intro s b hne h0 h24
    have hF := CircularTimePicker.setAm_fields s b hne h0 h24
    rw [hF.1, hF.2]
    cases b with
    | true =>
      rw [if_pos rfl]
      norm_num
      split_ifs <;> omega
    | false =>
      norm_num
      split_ifs <;> omega

/-- Witness for C5 amended at concrete states: a 9:30 construction, a
pointer selection of 4 on a consistent 3 AM picker, and a PM toggle from
it, all settle with the flag agreeing with `hours`. -/
theorem c5_invariant_amended_witness :
    ((CircularTimePicker.init 9 30).am = true ↔
      (CircularTimePicker.init 9 30).hours < 12) ∧
    ((CircularTimePicker.selectValue 4 ⟨3, 0, true, .hours, 3, 0⟩).am = true ↔
      (CircularTimePicker.selectValue 4 ⟨3, 0, true, .hours, 3, 0⟩).hours < 12) ∧
    ((CircularTimePicker.setAm false ⟨3, 0, true, .hours, 3, 0⟩).am = true ↔
      (CircularTimePicker.setAm false ⟨3, 0, true, .hours, 3, 0⟩).hours < 12) := by
  refine ⟨c5_invariant_amended.1 9 30, ?_, ?_⟩
  · exact (c5_invariant_amended.2.1 ⟨3, 0, true, .hours, 3, 0⟩ 4
      (by norm_num)).1 rfl (by norm_num) (by norm_num)
  · exact c5_invariant_amended.2.2 ⟨3, 0, true, .hours, 3, 0⟩ false
      (by norm_num) (by norm_num) (by norm_num)

/-- C10 fails as stated: with the hour dial active and the coordinator at
3:00 AM, assigning `time = 12:30` reads back as `00:30` — the reverse
sync pushes `selected = 12`, whose `on_selected` echo rewrites
`hours := 0` under the AM flag. -/
theorem c10_counterexample :
    CircularTimePicker.getTime
        (CircularTimePicker.setTime ⟨12, 30⟩
          (CircularTimePicker.setTimeList 3 0 (CircularTimePicker.init 0 0))) =
      some ⟨0, 30⟩ ∧
    ¬CircularTimePicker.getTime
        (CircularTimePicker.setTime ⟨12, 30⟩
          (CircularTimePicker.setTimeList 3 0 (CircularTimePicker.init 0 0))) =
      some ⟨12, 30⟩ := by
  decide

/-- C10 amended: reading `time` returns `datetime.time(hours, minutes)`
whenever those fields are in range, and set-then-get is the identity on
valid times provided the dial feedback cannot rewrite `hours`: always
with the minute dial active, and with the hour dial active whenever the
`_am` flag agrees with the new hour (`_am ⇔ t.hour < 12`); otherwise
(hour dial, `t.hour ∈ {0, 12}` against the flag) `hours` is flipped to
the other of `{0, 12}`. -/
theorem c10_time_alias_amended (s : CircularTimePicker) (t : PyTime)
    (ht1 : 0 ≤ t.hour) (ht2 : t.hour ≤ 23) (ht3 : 0 ≤ t.minute)
    (ht4 : t.minute ≤ 59) :
    (0 ≤ s.hours → s.hours ≤ 23 → 0 ≤ s.minutes → s.minutes ≤ 59 →
      s.getTime = some ⟨s.hours, s.minutes⟩)
    ∧ (s.picker = .hours → s.am = decide (t.hour < 12) →
      (s.setTime t).getTime = some t)
    ∧ (s.picker = .minutes → (s.setTime t).getTime = some t) := by
  obtain ⟨sh, sm, am, pk, hs, ms⟩ := s
  obtain ⟨th, tm⟩ := t
  simp only at ht1 ht2 ht3 ht4
  refine ⟨?_, ?_, ?_⟩
  · intro a b c d
    simp only [CircularTimePicker.getTime]
    rw [if_pos ⟨a, b, c, d⟩]
  · intro hp hcons
    obtain rfl := hp
    simp only at hcons
    simp only [CircularTimePicker.setTime]
    rw [CircularTimePicker.setTimeList_settle_hours th tm sh sm am hs ms hcons
      ht1 (by omega)]
    simp only [CircularTimePicker.getTime]
    rw [if_pos ⟨ht1, ht2, ht3, ht4⟩]
  · intro hp
    obtain rfl := hp
    simp only [CircularTimePicker.setTime]
    rw [CircularTimePicker.setTimeList_settle_minutes th tm sh sm am hs ms]
    simp only [CircularTimePicker.getTime]
    rw [if_pos ⟨ht1, ht2, ht3, ht4⟩]

/-- Witness for C10 amended: a concrete read, a consistent hour-dial
set-then-get of 9:41, and a minute-dial set-then-get of 15:20. -/
theorem c10_time_alias_amended_witness :
    (⟨3, 7, true, .hours, 3, 0⟩ : CircularTimePicker).getTime = some ⟨3, 7⟩ ∧
    ((⟨3, 0, true, .hours, 3, 0⟩ : CircularTimePicker).setTime ⟨9, 41⟩).getTime =
      some ⟨9, 41⟩ ∧
    ((⟨3, 0, false, .minutes, 3, 0⟩ : CircularTimePicker).setTime ⟨15, 20⟩).getTime =
      some ⟨15, 20⟩ := by
  refine ⟨?_, ?_, ?_⟩
  · exact (c10_time_alias_amended ⟨3, 7, true, .hours, 3, 0⟩ ⟨3, 7⟩ (by norm_num)
      (by norm_num) (by norm_num) (by norm_num)).1 (by norm_num) (by norm_num)
      (by norm_num) (by norm_num)
  · exact (c10_time_alias_amended ⟨3, 0, true, .hours, 3, 0⟩ ⟨9, 41⟩ (by norm_num)
      (by norm_num) (by norm_num) (by norm_num)).2.1 rfl (by norm_num)
  · exact (c10_time_alias_amended ⟨3, 0, false, .minutes, 3, 0⟩ ⟨15, 20⟩
      (by norm_num) (by norm_num) (by norm_num) (by norm_num)).2.2 rfl

/-- C6 fails as stated at construction: `CircularHourPicker.__init__` runs
the base constructor first (range still `[0, 0)`, so `selected := min`
sets 0) and then narrows the range to `[1, 13)` without touching
`selected`, leaving `selected = 0 < min` until the first sync. -/
theorem c6_counterexample :
    hourPickerInit.selected = 0 ∧ hourPickerInit.min = 1 ∧
    ¬(hourPickerInit.min ≤ hourPickerInit.selected) := by
  decide

/-- C7 fails as stated: with an empty range, `pos_for_number` returns the
constant origin `(0, 0)`, not the dial's center point, which for an
off-origin dial differs. -/
theorem c7_counterexample :
    degeneratePicker.items = 0 ∧
    degeneratePicker.pos_for_number 0 ≠
      (degeneratePicker.center_x + degeneratePicker.padding0 -
        degeneratePicker.padding2,
       degeneratePicker.center_y + degeneratePicker.padding3 -
        degeneratePicker.padding1) := by
  constructor
  · decide
  · simp only [degeneratePicker, CircularNumberPicker.pos_for_number,
      CircularNumberPicker.items]
    norm_num
    intro hcontra
    have h5 : (0 : ℝ) = 5 := congrArg Prod.fst hcontra
    norm_num at h5

/-- C7 amended: when `itemCount = 0` neither mapping divides by zero;
`pos_for_number` returns the fixed origin `(0, 0)` (the dial's center
only when the center is the origin) and `number_at_pos` returns
`minValue`, both guarded before any division. -/
theorem c7_degenerate_amended (p : CircularNumberPicker) (hp : p.items = 0)
    (n : ℤ) (x y : ℝ) :
    p.pos_for_number n = (0, 0) ∧ p.number_at_pos x y = p.min := by
  constructor
  · simp only [CircularNumberPicker.pos_for_number, hp, if_pos]
  · simp only [CircularNumberPicker.number_at_pos, hp, if_pos]

/-- Witness for C7 amended on the concrete degenerate picker. -/
theorem c7_degenerate_amended_witness :
    degeneratePicker.pos_for_number 3 = (0, 0) ∧
    degeneratePicker.number_at_pos 1 1 = 0 := by
  have h := c7_degenerate_amended degeneratePicker (by decide) 3 1 1
  simpa using h

/-- C8 fails as stated for general configurations: with
`(minValue, maxValue, stride) = (1, 13, 5)` the spec's relative condition
`(i - minValue) mod stride = 0` marks `1` (and `{1, 6, 11}`, three
values), but the code labels `i` with `i mod stride = 0` (`{5, 10}`, two
values), and `shown_items` counts the latter. -/
theorem c8_counterexample :
    (1 ∈ specTickValues 1 13 5) ∧ (1 ∉ tickValues 1 13 5) ∧
    shownCount 1 13 5 = 2 ∧ ((specTickValues 1 13 5).card : ℤ) = 3 := by
  decide

/-- C8 amended: a value receives a tick label iff it lies in range and is
an absolute multiple of the stride (`i mod stride = 0`, not relative to
`minValue`), and `shown_items` counts exactly those; for the two dial
configurations actually used (`min = 1, stride = 1` and
`min = 0, stride = 5`) the absolute and relative conditions coincide and
both dials show 12 ticks. -/
theorem c8_ticks_amended :
    (∀ a b m i : ℤ, i ∈ tickValues a b m ↔ (a ≤ i ∧ i < b ∧ i % m = 0))
    ∧ (∀ a b m : ℤ, shownCount a b m = ((tickValues a b m).card : ℤ))
    ∧ (∀ i : ℤ, i ∈ tickValues 1 13 1 ↔ i ∈ specTickValues 1 13 1)
    ∧ (∀ i : ℤ, i ∈ tickValues 0 60 5 ↔ i ∈ specTickValues 0 60 5)
    ∧ shownCount 1 13 1 = 12 ∧ shownCount 0 60 5 = 12 := by
  refine ⟨?_, ?_, ?_, ?_, by decide, by decide⟩
  · intro a b m i
    simp [tickValues, Finset.mem_filter, Finset.mem_Ico, and_assoc]
  · intro a b m
    rfl
  · intro i
    simp only [tickValues, specTickValues, Finset.mem_filter, Finset.mem_Ico]
    omega
  · intro i
    simp only [tickValues, specTickValues, Finset.mem_filter, Finset.mem_Ico]
    omega

/-- A pointer that never went down inside the hit region is never in the
grab list. -/
lemma touchRun_not_grabbed (collide : ℝ → ℝ → Bool) (numberAt : ℝ → ℝ → ℤ)
    (p : ℕ) :
    ∀ (evs : List TouchEvent) (s : DialTouchState), p ∉ s.grabbed →
      (∀ x' y', TouchEvent.down p x' y' ∈ evs → collide x' y' = false) →
      p ∉ (touchRun collide numberAt evs s).grabbed := by
  intro evs
  induction evs with
  | nil => exact fun s hs _ => hs
  | cons e rest ih =>
    intro s hs hd
    have hstep : p ∉ (touchStep collide numberAt s e).grabbed := by
      cases e with
      | down q xx yy =>
        by_cases hc : collide xx yy = true
        · have hqp : q ≠ p := by
            intro hq
            subst hq
            have hcf := hd xx yy (List.mem_cons_self _ _)
            rw [hcf] at hc
            exact absurd hc (by simp)
          simp only [touchStep, if_pos hc]
          intro hmem
          rcases List.mem_cons.mp hmem with h' | h'
          · exact hqp h'.symm
          · exact hs h'
        · simp only [touchStep, if_neg hc]
          exact hs
      | move q xx yy =>
        by_cases hm : q ∈ s.grabbed
        · simp only [touchStep, if_pos hm]
          exact hs
        · simp only [touchStep, if_neg hm]
          exact hs
      | up q =>
        simp only [touchStep]
        intro hmem
        exact hs (List.mem_of_mem_erase hmem)
    exact ih (touchStep collide numberAt s e) hstep
      (fun x' y' hm => hd x' y' (List.mem_cons_of_mem _ hm))

/-- C9: a move event from a pointer that never performed a pointer-down
inside this dial's hit region leaves `selected` unchanged, and a
pointer-down outside the hit region begins no interaction at all. -/
theorem c9_pointer_capture (collide : ℝ → ℝ → Bool) (numberAt : ℝ → ℝ → ℤ)
    (s0 : DialTouchState) (evs : List TouchEvent) (p : ℕ) (x y : ℝ)
    (hinit : s0.grabbed = [])
    (hnd : ∀ x' y', TouchEvent.down p x' y' ∈ evs → collide x' y' = false) :
    (touchStep collide numberAt (touchRun collide numberAt evs s0)
        (.move p x y)).selected = (touchRun collide numberAt evs s0).selected
    ∧ (∀ (s : DialTouchState) (q : ℕ) (x' y' : ℝ), collide x' y' = false →
        touchStep collide numberAt s (.down q x' y') = s) := by
  constructor
  · have hng : p ∉ (touchRun collide numberAt evs s0).grabbed :=
      touchRun_not_grabbed collide numberAt p evs s0
        (by rw [hinit]; exact List.not_mem_nil p) hnd
    simp only [touchStep, if_neg hng]
  · intro s q x' y' hc
    simp only [touchStep, hc]
    norm_num

/-- Witness for C9: with a hit test that always fails, a two-event trace
captures nothing, a foreign move leaves `selected` at 5, and a down
outside the region is a no-op. -/
theorem c9_pointer_capture_witness :
    (touchStep (fun _ _ => false) (fun _ _ => 37)
        (touchRun (fun _ _ => false) (fun _ _ => 37)
          [TouchEvent.down 1 0 0, TouchEvent.up 1] ⟨5, []⟩)
        (.move 2 1 1)).selected = 5 ∧
    touchStep (fun _ _ => false) (fun _ _ => 37) ⟨5, []⟩ (.down 3 2 2) = ⟨5, []⟩ := by
  have h := c9_pointer_capture (fun _ _ => false) (fun _ _ => 37) ⟨5, []⟩
    [TouchEvent.down 1 0 0, TouchEvent.up 1] 2 1 1 rfl
    (by intro x' y' hm; simp at hm)
  exact ⟨h.1.trans rfl, h.2 ⟨5, []⟩ 3 2 2 rfl⟩

lemma pyAngle_of_pos_pos {lx ly : ℝ} (hx : 0 < lx) (hy : 0 < ly) :
    pyAngle lx ly = arctan (ly / lx) := by
  simp [pyAngle, hx.ne', hx.not_lt, hy.not_lt]

lemma pyAngle_of_pos_neg {lx ly : ℝ} (hx : 0 < lx) (hy : ly < 0) :
    pyAngle lx ly = arctan (ly / lx) + 2 * π := by
  simp [pyAngle, hx.ne', hx.not_lt, hy.not_lt, hx, hy]

lemma pyAngle_of_neg_pos {lx ly : ℝ} (hx : lx < 0) (hy : 0 < ly) :
    pyAngle lx ly = arctan (ly / lx) + π := by
  simp [pyAngle, hx.ne, hx.not_lt, hy.not_lt, hx, hy]

lemma pyAngle_of_neg_neg {lx ly : ℝ} (hx : lx < 0) (hy : ly < 0) :
    pyAngle lx ly = arctan (ly / lx) + π := by
  simp [pyAngle, hx.ne, hx.not_lt, hy.not_lt, hx, hy]

lemma pyAngle_of_zero_pos {ly : ℝ} (hy : 0 < ly) :
    pyAngle 0 ly = π / 2 := by
  simp [pyAngle, hy]

lemma pyAngle_of_zero_neg {ly : ℝ} (hy : ly < 0) :
    pyAngle 0 ly = 3 * π / 2 := by
  simp [pyAngle, hy, hy.not_lt]

lemma pyAngle_of_pos_zero {lx : ℝ} (hx : 0 < lx) :
    pyAngle lx 0 = 0 := by
  simp [pyAngle, hx.ne', hx.not_lt]

lemma pyAngle_of_neg_zero {lx : ℝ} (hx : lx < 0) :
    pyAngle lx 0 = 0 := by
  simp [pyAngle, hx.ne, hx.not_lt, hx]

lemma pyAngle_zero_zero : pyAngle 0 0 = 0 := by
  simp [pyAngle]

/-- The quadrant-resolved angle always lands in `[0, 2π)`. -/
lemma pyAngle_nonneg_lt (lx ly : ℝ) :
    0 ≤ pyAngle lx ly ∧ pyAngle lx ly < 2 * π := by
  have hpi := Real.pi_pos
  have hb1 := Real.arctan_lt_pi_div_two (ly / lx)
  have hb2 := Real.neg_pi_div_two_lt_arctan (ly / lx)
  rcases lt_trichotomy lx 0 with hx | hx | hx
  · rcases lt_trichotomy ly 0 with hy | hy | hy
    · rw [pyAngle_of_neg_neg hx hy]
      constructor <;> linarith
    · rw [hy, pyAngle_of_neg_zero hx]
      constructor <;> linarith
    · rw [pyAngle_of_neg_pos hx hy]
      constructor <;> linarith
  · subst hx
    rcases lt_trichotomy ly 0 with hy | hy | hy
    · rw [pyAngle_of_zero_neg hy]
      constructor <;> linarith
    · rw [hy, pyAngle_zero_zero]
      constructor <;> linarith
    · rw [pyAngle_of_zero_pos hy]
      constructor <;> linarith
  · rcases lt_trichotomy ly 0 with hy | hy | hy
    · rw [pyAngle_of_pos_neg hx hy]
      have hneg : arctan (ly / lx) < 0 := by
        have h1 : arctan (ly / lx) < arctan 0 :=
          Real.arctan_strictMono (div_neg_of_neg_of_pos hy hx)
        rwa [Real.arctan_zero] at h1
      constructor <;> linarith
    · rw [hy, pyAngle_of_pos_zero hx]
      constructor <;> linarith
    · rw [pyAngle_of_pos_pos hx hy]
      have hpos : 0 ≤ arctan (ly / lx) := by
        have h1 : arctan 0 ≤ arctan (ly / lx) :=
          Real.arctan_strictMono.monotone (div_pos hy hx).le
        rwa [Real.arctan_zero] at h1
      constructor <;> linarith

/-- On the circle of radius `R > 0`, the quadrant resolution recovers the
polar angle for every `θ` in `[0, 2π)` except `θ = π`, where the code's
`atan(0 / lx) = 0` branch misfires. -/
lemma pyAngle_cos_sin (R θ : ℝ) (hR : 0 < R) (h0 : 0 ≤ θ) (h2 : θ < 2 * π)
    (hpi : θ ≠ π) : pyAngle (Real.cos θ * R) (Real.sin θ * R) = θ := by
  have hπ := Real.pi_pos
  have hdiv : Real.sin θ * R / (Real.cos θ * R) = Real.tan θ := by
    rw [mul_div_mul_right _ _ hR.ne', Real.tan_eq_sin_div_cos]
  rcases eq_or_lt_of_le h0 with h00 | h00
  · rw [← h00, Real.cos_zero, Real.sin_zero, one_mul, zero_mul,
      pyAngle_of_pos_zero hR]
  rcases lt_trichotomy θ (π / 2) with hA | hA | hA
  · have hcos : 0 < Real.cos θ := Real.cos_pos_of_mem_Ioo ⟨by linarith, hA⟩
    have hsin : 0 < Real.sin θ := Real.sin_pos_of_pos_of_lt_pi h00 (by linarith)
    rw [pyAngle_of_pos_pos (mul_pos hcos hR) (mul_pos hsin hR), hdiv,
      Real.arctan_tan (by linarith) hA]
  · rw [hA, Real.cos_pi_div_two, Real.sin_pi_div_two, zero_mul, one_mul,
      pyAngle_of_zero_pos hR]
  · rcases lt_trichotomy θ π with hB | hB | hB
    · have hcos : Real.cos θ < 0 :=
        Real.cos_neg_of_pi_div_two_lt_of_lt hA (by linarith)
      have hsin : 0 < Real.sin θ := Real.sin_pos_of_pos_of_lt_pi (by linarith) hB
      rw [pyAngle_of_neg_pos (mul_neg_of_neg_of_pos hcos hR) (mul_pos hsin hR),
        hdiv]
      have ht : Real.tan θ = Real.tan (θ - π) := (Real.tan_sub_pi θ).symm
      rw [ht, Real.arctan_tan (by linarith) (by linarith)]
      ring
    · exact absurd hB hpi
    · rcases lt_trichotomy θ (3 * π / 2) with hC | hC | hC
      · have hcos : Real.cos θ < 0 :=
          Real.cos_neg_of_pi_div_two_lt_of_lt hA (by linarith)
        have hsin : Real.sin θ < 0 := by
          have h1 := Real.sin_pos_of_pos_of_lt_pi
            (show (0 : ℝ) < θ - π by linarith) (show θ - π < π by linarith)
          have h2' := Real.sin_sub_pi θ
          linarith [h2' ▸ h1]
        rw [pyAngle_of_neg_neg (mul_neg_of_neg_of_pos hcos hR)
          (mul_neg_of_neg_of_pos hsin hR), hdiv]
        have ht : Real.tan θ = Real.tan (θ - π) := (Real.tan_sub_pi θ).symm
        rw [ht, Real.arctan_tan (by linarith) (by linarith)]
        ring
      · rw [hC, show 3 * π / 2 = π / 2 + π by ring, Real.cos_add_pi,
          Real.sin_add_pi, Real.cos_pi_div_two, Real.sin_pi_div_two, neg_zero,
          zero_mul, neg_one_mul, pyAngle_of_zero_neg (neg_lt_zero.mpr hR)]
        ring
      · have hcos : 0 < Real.cos θ := by
          rw [← Real.cos_sub_two_pi θ]
          exact Real.cos_pos_of_mem_Ioo ⟨by linarith, by linarith⟩
        have hsin : Real.sin θ < 0 := by
          have h1 := Real.sin_pos_of_pos_of_lt_pi
            (show (0 : ℝ) < θ - π by linarith) (show θ - π < π by linarith)
          have h2' := Real.sin_sub_pi θ
          linarith [h2' ▸ h1]
        rw [pyAngle_of_pos_neg (mul_pos hcos hR)
          (mul_neg_of_neg_of_pos hsin hR), hdiv]
        have ht : Real.tan (θ - 2 * π) = Real.tan θ := by
          rw [show θ - 2 * π = θ - π - π by ring, Real.tan_sub_pi,
            Real.tan_sub_pi]
        rw [← ht, Real.arctan_tan (by linarith) (by linarith)]
        ring

lemma pyInt_bounds (x : ℝ) (k : ℤ) (h0 : 0 < x) (hk : x ≤ (k : ℝ)) :
    0 ≤ pyInt x ∧ pyInt x ≤ k := by
  rw [pyInt, if_pos h0.le]
  constructor
  · exact Int.floor_nonneg.mpr h0.le
  · have := Int.floor_le_floor hk
    rwa [Int.floor_intCast] at this

lemma hour_range_aux (w ht p0 p1 p2 p3 cx cy r0 r1 : ℝ) (x y : ℝ) :
    1 ≤ (hourPicker w ht p0 p1 p2 p3 cx cy r0 r1).number_at_pos x y ∧
    (hourPicker w ht p0 p1 p2 p3 cx cy r0 r1).number_at_pos x y < 13 := by
  have h12 : (shownCount 1 13 1 : ℤ) = 12 := by decide
  have hπ := Real.pi_pos
  simp only [CircularNumberPicker.number_at_pos, CircularNumberPicker.items,
    CircularNumberPicker.shown_items, hourPicker, pyRadians, h12]
  norm_num
  obtain ⟨hA0, hA2⟩ :=
    pyAngle_nonneg_lt (x - (cx + p0 - p2)) (y - (cy + p3 - p1))
  set A := pyAngle (x - (cx + p0 - p2)) (y - (cy + p3 - p1)) with hA
  have hq : (0 : ℝ) < 2 * π / 12 := by positivity
  have hbig : 0 <
      (if 2 * π < A + -(75 * π) / 180 then
        2 * π - (A + -(75 * π) / 180) + 2 * π
      else if 2 * π < 2 * π - (A + -(75 * π) / 180) then
        -(-(75 * π) / 180) + -A
      else 2 * π - (A + -(75 * π) / 180)) := by
    split_ifs with hc1 hc2
    · linarith
    · linarith
    · linarith
  rw [pyInt, if_pos (div_pos hbig hq).le]
  exact Int.floor_nonneg.mpr (div_pos hbig hq).le

lemma minute_range_aux (w ht p0 p1 p2 p3 cx cy r0 r1 : ℝ) (x y : ℝ) :
    0 ≤ (minutePicker w ht p0 p1 p2 p3 cx cy r0 r1).number_at_pos x y ∧
    (minutePicker w ht p0 p1 p2 p3 cx cy r0 r1).number_at_pos x y < 60 := by
  have h12 : (shownCount 0 60 5 : ℤ) = 12 := by decide
  have hπ := Real.pi_pos
  simp only [CircularNumberPicker.number_at_pos, CircularNumberPicker.items,
    CircularNumberPicker.shown_items, minutePicker, pyRadians, h12]
  norm_num
  have hne : ¬(2 * π / 12 = 2 * π / 60) := by
    intro hcontra
    linarith
  rw [if_neg hne]
  obtain ⟨hA0, hA2⟩ :=
    pyAngle_nonneg_lt (x - (cx + p0 - p2)) (y - (cy + p3 - p1))
  set A := pyAngle (x - (cx + p0 - p2)) (y - (cy + p3 - p1)) with hA
  have hq : (0 : ℝ) < 2 * π / 60 := by positivity
  have hbig : 0 <
      (if 2 * π - (A + -(105 * π) / 180) - 2 * π / 12 / 2 < 0 then
        2 * π - (A + -(105 * π) / 180) - 2 * π / 12 / 2 + 2 * π
      else if 2 * π < 2 * π - (A + -(105 * π) / 180) - 2 * π / 12 / 2 then
        2 * π - (A + -(105 * π) / 180) - 2 * π / 12 / 2 - 2 * π
      else 2 * π - (A + -(105 * π) / 180) - 2 * π / 12 / 2) := by
    split_ifs with hc1 hc2
    · linarith
    · linarith
    · linarith
  rw [pyInt, if_pos (div_pos hbig hq).le]
  exact Int.floor_nonneg.mpr (div_pos hbig hq).le

/-- C6 amended: the minute dial's `selected` is in range at construction
and the pointer inverse mapping always produces an in-range value for
both dial configurations, but the hour dial's `selected` is `0` — below
its minimum of 1 — immediately after construction. -/
theorem c6_selected_range_amended (w ht p0 p1 p2 p3 cx cy r0 r1 x y : ℝ) :
    (hourPickerInit.selected = 0 ∧ hourPickerInit.min = 1)
    ∧ (minutePickerInit.min ≤ minutePickerInit.selected ∧
        minutePickerInit.selected < minutePickerInit.max)
    ∧ (1 ≤ (hourPicker w ht p0 p1 p2 p3 cx cy r0 r1).number_at_pos x y ∧
        (hourPicker w ht p0 p1 p2 p3 cx cy r0 r1).number_at_pos x y < 13)
    ∧ (0 ≤ (minutePicker w ht p0 p1 p2 p3 cx cy r0 r1).number_at_pos x y ∧
        (minutePicker w ht p0 p1 p2 p3 cx cy r0 r1).number_at_pos x y < 60) :=
  ⟨⟨by decide, by decide⟩, ⟨by decide, by decide⟩,
    hour_range_aux w ht p0 p1 p2 p3 cx cy r0 r1 x y,
    minute_range_aux w ht p0 p1 p2 p3 cx cy r0 r1 x y⟩

lemma hour_pos_for_number (w ht p0 p1 p2 p3 cx cy r0 r1 : ℝ) (n : ℤ) :
    (hourPicker w ht p0 p1 p2 p3 cx cy r0 r1).pos_for_number n =
      (Real.cos (2 * π + π / 2 - (n : ℝ) * (π / 6)) *
          (Min.min (w - p0 - p2) (ht - p1 - p3) / 2 * (r0 + r1) / 2) +
        (cx + p0 - p2),
       Real.sin (2 * π + π / 2 - (n : ℝ) * (π / 6)) *
          (Min.min (w - p0 - p2) (ht - p1 - p3) / 2 * (r0 + r1) / 2) +
        (cy + p3 - p1)) := by
  have h12 : (shownCount 1 13 1 : ℤ) = 12 := by decide
  simp only [CircularNumberPicker.pos_for_number, CircularNumberPicker.items,
    CircularNumberPicker.shown_items, hourPicker, pyRadians, h12]
  norm_num
  have harg : 2 * π - -(75 * π) / 180 + -((n : ℝ) * (2 * π / 12)) + 2 * π / 12 / 2
      = 2 * π + π / 2 - (n : ℝ) * (π / 6) := by ring
  exact ⟨Or.inl (by rw [harg]), Or.inl (by rw [harg])⟩

lemma minute_pos_for_number (w ht p0 p1 p2 p3 cx cy r0 r1 : ℝ) (n : ℤ) :
    (minutePicker w ht p0 p1 p2 p3 cx cy r0 r1).pos_for_number n =
      (Real.cos (2 * π + π / 2 - (n : ℝ) * (π / 30)) *
          (Min.min (w - p0 - p2) (ht - p1 - p3) / 2 * (r0 + r1) / 2) +
        (cx + p0 - p2),
       Real.sin (2 * π + π / 2 - (n : ℝ) * (π / 30)) *
          (Min.min (w - p0 - p2) (ht - p1 - p3) / 2 * (r0 + r1) / 2) +
        (cy + p3 - p1)) := by
  have h12 : (shownCount 0 60 5 : ℤ) = 12 := by decide
  simp only [CircularNumberPicker.pos_for_number, CircularNumberPicker.items,
    CircularNumberPicker.shown_items, minutePicker, pyRadians, h12]
  norm_num
  have harg : 2 * π - -(105 * π) / 180 + -((n : ℝ) * (2 * π / 60)) - 2 * π / 12 / 2
      = 2 * π + π / 2 - (n : ℝ) * (π / 30) := by ring
  exact ⟨Or.inl (by rw [harg]), Or.inl (by rw [harg])⟩

/-- On the hour dial the forward angle, reduced mod 2π, is recovered by
the quadrant resolution for every `n` in `[1, 13)` except `n = 9` (the
9-o'clock axis point, where the code's quadrant logic misfires). -/
lemma hour_pyAngle_reduce (R : ℝ) (hR : 0 < R) (n : ℤ) (h1 : 1 ≤ n)
    (h13 : n < 13) (h9 : n ≠ 9) :
    pyAngle (Real.cos (2 * π + π / 2 - (n : ℝ) * (π / 6)) * R)
        (Real.sin (2 * π + π / 2 - (n : ℝ) * (π / 6)) * R) =
      if n ≤ 3 then π / 2 - (n : ℝ) * (π / 6)
      else 2 * π + π / 2 - (n : ℝ) * (π / 6) := by
  have hπ := Real.pi_pos
  have h1' : (1 : ℝ) ≤ (n : ℝ) := by exact_mod_cast h1
  by_cases h3 : n ≤ 3
  · have h3' : (n : ℝ) ≤ 3 := by exact_mod_cast h3
    rw [if_pos h3]
    have hφ : 2 * π + π / 2 - (n : ℝ) * (π / 6) =
        (π / 2 - (n : ℝ) * (π / 6)) + 2 * π := by ring
    rw [hφ, Real.cos_add_two_pi, Real.sin_add_two_pi]
    apply pyAngle_cos_sin R _ hR
    · nlinarith
    · nlinarith
    · intro heq
      have hcol : (n : ℝ) * π = -3 * π := by linear_combination (-6 : ℝ) * heq
      have : (n : ℝ) = -3 := mul_right_cancel₀ (ne_of_gt hπ) hcol
      have : n = -3 := by exact_mod_cast this
      omega
  · have h4' : (4 : ℝ) ≤ (n : ℝ) := by exact_mod_cast (show (4 : ℤ) ≤ n by omega)
    have h12' : (n : ℝ) ≤ 12 := by exact_mod_cast (show n ≤ (12 : ℤ) by omega)
    rw [if_neg h3]
    apply pyAngle_cos_sin R _ hR
    · nlinarith
    · nlinarith
    · intro heq
      have hcol : (n : ℝ) * π = 9 * π := by linear_combination (-6 : ℝ) * heq
      have : (n : ℝ) = 9 := mul_right_cancel₀ (ne_of_gt hπ) hcol
      have : n = 9 := by exact_mod_cast this
      exact h9 this

/-- On the minute dial the forward angle, reduced mod 2π, is recovered by
the quadrant resolution for every `n` in `[1, 60)` except `n = 45` (the
left axis point); `n = 0` fails separately in the tail normalization. -/
lemma minute_pyAngle_reduce (R : ℝ) (hR : 0 < R) (n : ℤ) (h1 : 1 ≤ n)
    (h60 : n < 60) (h45 : n ≠ 45) :
    pyAngle (Real.cos (2 * π + π / 2 - (n : ℝ) * (π / 30)) * R)
        (Real.sin (2 * π + π / 2 - (n : ℝ) * (π / 30)) * R) =
      if n ≤ 15 then π / 2 - (n : ℝ) * (π / 30)
      else 2 * π + π / 2 - (n : ℝ) * (π / 30) := by
  have hπ := Real.pi_pos
  have h1' : (1 : ℝ) ≤ (n : ℝ) := by exact_mod_cast h1
  by_cases h15 : n ≤ 15
  · have h15' : (n : ℝ) ≤ 15 := by exact_mod_cast h15
    rw [if_pos h15]
    have hφ : 2 * π + π / 2 - (n : ℝ) * (π / 30) =
        (π / 2 - (n : ℝ) * (π / 30)) + 2 * π := by ring
    rw [hφ, Real.cos_add_two_pi, Real.sin_add_two_pi]
    apply pyAngle_cos_sin R _ hR
    · nlinarith
    · nlinarith
    · intro heq
      have hcol : (n : ℝ) * π = -15 * π := by linear_combination (-30 : ℝ) * heq
      have : (n : ℝ) = -15 := mul_right_cancel₀ (ne_of_gt hπ) hcol
      have : n = -15 := by exact_mod_cast this
      omega
  · have h16' : (16 : ℝ) ≤ (n : ℝ) := by exact_mod_cast (show (16 : ℤ) ≤ n by omega)
    have h59' : (n : ℝ) ≤ 59 := by exact_mod_cast (show n ≤ (59 : ℤ) by omega)
    rw [if_neg h15]
    apply pyAngle_cos_sin R _ hR
    · nlinarith
    · nlinarith
    · intro heq
      have hcol : (n : ℝ) * π = 45 * π := by linear_combination (-30 : ℝ) * heq
      have : (n : ℝ) = 45 := mul_right_cancel₀ (ne_of_gt hπ) hcol
      have : n = 45 := by exact_mod_cast this
      exact h45 this

lemma hour_roundtrip (w ht p0 p1 p2 p3 cx cy r0 r1 : ℝ)
    (hr : 0 < Min.min (w - p0 - p2) (ht - p1 - p3) / 2 * (r0 + r1) / 2)
    (n : ℤ) (h1 : 1 ≤ n) (h13 : n < 13) (h9 : n ≠ 9) :
    (hourPicker w ht p0 p1 p2 p3 cx cy r0 r1).number_at_pos
      ((hourPicker w ht p0 p1 p2 p3 cx cy r0 r1).pos_for_number n).1
      ((hourPicker w ht p0 p1 p2 p3 cx cy r0 r1).pos_for_number n).2 = n := by
  have h12 : (shownCount 1 13 1 : ℤ) = 12 := by decide
  have hπ := Real.pi_pos
  rw [hour_pos_for_number]
  simp only [CircularNumberPicker.number_at_pos, CircularNumberPicker.items,
    CircularNumberPicker.shown_items, hourPicker, pyRadians, h12]
  norm_num
  rw [hour_pyAngle_reduce _ hr n h1 h13 h9]
  have hn1 : (1 : ℝ) ≤ (n : ℝ) := by exact_mod_cast h1
  have hend : pyInt ((n : ℝ) - 1 / 2) = n - 1 := by
    rw [pyInt, if_pos (by linarith)]
    exact Int.floor_eq_iff.mpr ⟨by push_cast; linarith, by push_cast; linarith⟩
  by_cases h3 : n ≤ 3
  · have hn3 : (n : ℝ) ≤ 3 := by exact_mod_cast h3
    rw [if_pos h3]
    rw [if_neg (by nlinarith), if_pos (by nlinarith)]
    have hval : (-(-(75 * π) / 180) + -(π / 2 - (n : ℝ) * (π / 6))) / (2 * π / 12)
        = (n : ℝ) - 1 / 2 := by
      field_simp
      ring
    rw [hval, hend, inf_eq_min, min_eq_left (show n - 1 + 1 ≤ 12 by omega)]
    omega
  · have hn4 : (4 : ℝ) ≤ (n : ℝ) := by exact_mod_cast (show (4 : ℤ) ≤ n by omega)
    have hn12 : (n : ℝ) ≤ 12 := by exact_mod_cast (show n ≤ (12 : ℤ) by omega)
    rw [if_neg h3]
    rw [if_neg (by nlinarith), if_neg (by nlinarith)]
    have hval : (2 * π - (2 * π + π / 2 - (n : ℝ) * (π / 6) + -(75 * π) / 180)) /
        (2 * π / 12) = (n : ℝ) - 1 / 2 := by
      field_simp
      ring
    rw [hval, hend, inf_eq_min, min_eq_left (show n - 1 + 1 ≤ 12 by omega)]
    omega

lemma minute_roundtrip (w ht p0 p1 p2 p3 cx cy r0 r1 : ℝ)
    (hr : 0 < Min.min (w - p0 - p2) (ht - p1 - p3) / 2 * (r0 + r1) / 2)
    (n : ℤ) (h1 : 1 ≤ n) (h60 : n < 60) (h45 : n ≠ 45) :
    (minutePicker w ht p0 p1 p2 p3 cx cy r0 r1).number_at_pos
      ((minutePicker w ht p0 p1 p2 p3 cx cy r0 r1).pos_for_number n).1
      ((minutePicker w ht p0 p1 p2 p3 cx cy r0 r1).pos_for_number n).2 = n := by
  have h12 : (shownCount 0 60 5 : ℤ) = 12 := by decide
  have hπ := Real.pi_pos
  rw [minute_pos_for_number]
  simp only [CircularNumberPicker.number_at_pos, CircularNumberPicker.items,
    CircularNumberPicker.shown_items, minutePicker, pyRadians, h12]
  norm_num
  have hne : ¬(2 * π / 12 = 2 * π / 60) := by
    intro hcontra
    linarith
  rw [if_neg hne, minute_pyAngle_reduce _ hr n h1 h60 h45]
  have hn1 : (1 : ℝ) ≤ (n : ℝ) := by exact_mod_cast h1
  have hn59 : (n : ℝ) ≤ 59 := by exact_mod_cast (show n ≤ (59 : ℤ) by omega)
  have hend : pyInt ((n : ℝ)) = n := by
    rw [pyInt, if_pos (by linarith)]
    exact Int.floor_intCast n
  by_cases h15 : n ≤ 15
  · rw [if_pos h15]
    rw [if_neg (by nlinarith), if_pos (by nlinarith)]
    have hval : (2 * π - (π / 2 - (n : ℝ) * (π / 30) + -(105 * π) / 180) -
        2 * π / 12 / 2 - 2 * π) / (2 * π / 60) = (n : ℝ) := by
      field_simp
      ring
    rw [hval, hend, inf_eq_min, min_eq_left (show n ≤ 59 by omega)]
  · have hn16 : (16 : ℝ) ≤ (n : ℝ) := by
      exact_mod_cast (show (16 : ℤ) ≤ n by omega)
    rw [if_neg h15]
    rw [if_neg (by nlinarith), if_neg (by nlinarith)]
    have hval : (2 * π - (2 * π + π / 2 - (n : ℝ) * (π / 30) + -(105 * π) / 180) -
        2 * π / 12 / 2) / (2 * π / 60) = (n : ℝ) := by
      field_simp
      ring
    rw [hval, hend, inf_eq_min, min_eq_left (show n ≤ 59 by omega)]


/-- C1 fails as stated under exact real arithmetic: on the hour dial
(unit-circle geometry) the value 9 sits on the negative x-axis, where the
quadrant logic computes `atan(0/lx) = 0` instead of π, so the roundtrip
returns 3; on the minute dial the value 0 sits at the top, where the
normalization leaves the angle at exactly 2π (the guard is `> 2π`, not
`≥`), so the roundtrip returns 59. -/
theorem c1_counterexample :
    (hourPickerUnit.number_at_pos (hourPickerUnit.pos_for_number 9).1
        (hourPickerUnit.pos_for_number 9).2 = 3 ∧
      hourPickerUnit.number_at_pos (hourPickerUnit.pos_for_number 9).1
        (hourPickerUnit.pos_for_number 9).2 ≠ 9) ∧
    (minutePickerUnit.number_at_pos (minutePickerUnit.pos_for_number 0).1
        (minutePickerUnit.pos_for_number 0).2 = 59 ∧
      minutePickerUnit.number_at_pos (minutePickerUnit.pos_for_number 0).1
        (minutePickerUnit.pos_for_number 0).2 ≠ 0) := by
  have hπ := Real.pi_pos
  have hhour : hourPickerUnit.number_at_pos (hourPickerUnit.pos_for_number 9).1
      (hourPickerUnit.pos_for_number 9).2 = 3 := by
    have h12 : (shownCount 1 13 1 : ℤ) = 12 := by decide
    show (hourPicker 2 2 0 0 0 0 0 0 1 1).number_at_pos
      ((hourPicker 2 2 0 0 0 0 0 0 1 1).pos_for_number 9).1
      ((hourPicker 2 2 0 0 0 0 0 0 1 1).pos_for_number 9).2 = 3
    rw [hour_pos_for_number]
    simp only [CircularNumberPicker.number_at_pos, CircularNumberPicker.items,
      CircularNumberPicker.shown_items, hourPicker, pyRadians, h12]
    norm_num
    have harg : 2 * π + π / 2 - 9 * (π / 6) = π := by ring
    rw [harg, Real.cos_pi, Real.sin_pi,
      pyAngle_of_neg_zero (show (-1 : ℝ) < 0 by norm_num)]
    rw [if_neg (by intro hcontra; nlinarith), if_pos (by nlinarith)]
    have hval : (-(-(75 * π) / 180) + -(0 : ℝ)) / (2 * π / 12) = 5 / 2 := by
      field_simp
      ring
    rw [hval]
    have hfl : pyInt ((5 : ℝ) / 2) = 2 := by
      rw [pyInt, if_pos (by norm_num)]
      exact Int.floor_eq_iff.mpr ⟨by norm_num, by norm_num⟩
    rw [hfl]
    decide
  have hminute : minutePickerUnit.number_at_pos
      (minutePickerUnit.pos_for_number 0).1
      (minutePickerUnit.pos_for_number 0).2 = 59 := by
    have h12 : (shownCount 0 60 5 : ℤ) = 12 := by decide
    show (minutePicker 2 2 0 0 0 0 0 0 1 1).number_at_pos
      ((minutePicker 2 2 0 0 0 0 0 0 1 1).pos_for_number 0).1
      ((minutePicker 2 2 0 0 0 0 0 0 1 1).pos_for_number 0).2 = 59
    rw [minute_pos_for_number]
    simp only [CircularNumberPicker.number_at_pos, CircularNumberPicker.items,
      CircularNumberPicker.shown_items, minutePicker, pyRadians, h12]
    norm_num
    have hne : ¬(2 * π / 12 = 2 * π / 60) := by
      intro hcontra
      linarith
    rw [if_neg hne]
    have harg : 2 * π + π / 2 = π / 2 + 2 * π := by ring
    rw [harg, Real.cos_add_two_pi, Real.sin_add_two_pi, Real.cos_pi_div_two,
      Real.sin_pi_div_two, pyAngle_of_zero_pos (show (0 : ℝ) < 1 by norm_num)]
    rw [if_neg (by intro hcontra; nlinarith), if_neg (by intro hcontra; nlinarith)]
    have hval : (2 * π - (π / 2 + -(105 * π) / 180) - 2 * π / 12 / 2) /
        (2 * π / 60) = 60 := by
      field_simp
      ring
    rw [hval]
    have hfl : pyInt ((60 : ℝ)) = 60 := by
      rw [pyInt, if_pos (by norm_num)]
      exact Int.floor_eq_iff.mpr ⟨by norm_num, by norm_num⟩
    rw [hfl]
    decide
  exact ⟨⟨hhour, by rw [hhour]; decide⟩, ⟨hminute, by rw [hminute]; decide⟩⟩

/-- C1 amended: with any geometry whose tick radius is positive, the
inverse mapping recovers the forward mapping's input for every hour-dial
value in `[1, 13)` except 9 and every minute-dial value in `[1, 60)`
except 45 (under exact real arithmetic, 9 and 45 sit on the negative
x-axis where the quadrant logic misfires, and minute 0 sits on the
`angle = 2π` normalization boundary). -/
theorem c1_amended_roundtrip (w ht p0 p1 p2 p3 cx cy r0 r1 : ℝ)
    (hr : 0 < Min.min (w - p0 - p2) (ht - p1 - p3) / 2 * (r0 + r1) / 2)
    (n : ℤ) :
    (1 ≤ n → n < 13 → n ≠ 9 →
      (hourPicker w ht p0 p1 p2 p3 cx cy r0 r1).number_at_pos
        ((hourPicker w ht p0 p1 p2 p3 cx cy r0 r1).pos_for_number n).1
        ((hourPicker w ht p0 p1 p2 p3 cx cy r0 r1).pos_for_number n).2 = n)
    ∧ (1 ≤ n → n < 60 → n ≠ 45 →
      (minutePicker w ht p0 p1 p2 p3 cx cy r0 r1).number_at_pos
        ((minutePicker w ht p0 p1 p2 p3 cx cy r0 r1).pos_for_number n).1
        ((minutePicker w ht p0 p1 p2 p3 cx cy r0 r1).pos_for_number n).2 = n) :=
  ⟨hour_roundtrip w ht p0 p1 p2 p3 cx cy r0 r1 hr n,
   minute_roundtrip w ht p0 p1 p2 p3 cx cy r0 r1 hr n⟩

/-- Witness for C1 amended on the unit-circle geometry: hour 5 and
minute 7 both roundtrip. -/
theorem c1_amended_roundtrip_witness :
    hourPickerUnit.number_at_pos (hourPickerUnit.pos_for_number 5).1
        (hourPickerUnit.pos_for_number 5).2 = 5 ∧
    minutePickerUnit.number_at_pos (minutePickerUnit.pos_for_number 7).1
        (minutePickerUnit.pos_for_number 7).2 = 7 := by
  have hr : (0 : ℝ) <
      Min.min ((2 : ℝ) - 0 - 0) ((2 : ℝ) - 0 - 0) / 2 * ((1 : ℝ) + 1) / 2 := by
    norm_num
  exact ⟨(c1_amended_roundtrip 2 2 0 0 0 0 0 0 1 1 hr 5).1 (by norm_num)
      (by norm_num) (by norm_num),
    (c1_amended_roundtrip 2 2 0 0 0 0 0 0 1 1 hr 7).2 (by norm_num)
      (by norm_num) (by norm_num)⟩
